import Mathlib

/-!
Verification of the web-search post-processor of
`src/langchain_playground/Tools/WebSearch/websearch.py`.

The Python module is shallowly embedded here:

* Python `str` is modelled as Lean `String` (a sequence of Unicode scalar
  values, `List Char`); Python's `ord`/lexicographic character comparisons
  are code-point comparisons, modelled through `Char.toNat`.
* Python `float` scores are modelled as `ℚ` with the usual order (the code
  only ever compares scores, so the exact float representation is not
  load-bearing; rendering of a score into the output is modelled by
  `toString` on `ℚ`, an opaque-but-computable stand-in for Python's float
  repr, which no claim depends on textually).
* A `dict` field that can be `None` is an `Option`.
* The external LLM used by `_summarize_content` is an oracle parameter
  `gen : Option String → String`: `chain.batch xs` performs one generation
  call per element of `xs` and returns their answers in order, hence it is
  modelled as `xs.map gen` (an element that is Python `None` is still sent
  to the chain; the prompt template renders it as the text "None").
-/

namespace WebSearch

/-- `SearchArgs` from `websearch.py` (the `query`/`max_results` fields feed
the Tavily request, which is an external collaborator and not modelled;
only the three processing options are used by `process_response`). -/
structure SearchArgs where
  query : String
  max_results : Nat := 5
  filter_score : ℚ := 1/2
  summarize_content : Bool := false
  suggested_answer : Bool := false

/-- One entry of `response["results"]` in the Tavily response. -/
structure SearchResult where
  url : String
  score : ℚ
  content : Option String
  raw_content : Option String
deriving DecidableEq, Repr

/-- The Tavily response `dict`: `query`, `results`, and the provider's
overall `answer` string. -/
structure SearchResponse where
  query : String
  results : List SearchResult
  answer : String
deriving DecidableEq, Repr

/-! ### `filter_garbage` -/

/-- `PRINTABLE_ASCII = lambda c: 32 <= ord(c) <= 126` -/
def PRINTABLE_ASCII (c : Char) : Bool :=
  32 ≤ c.toNat && c.toNat ≤ 126

/-- `CONTROL_CHARS = "\n\t\r"` (membership test `c in CONTROL_CHARS`). -/
def CONTROL_CHARS : List Char := ['\n', '\t', '\r']

/-- `CHINESE = lambda c: "一" <= c <= "鿿"` -/
def CHINESE (c : Char) : Bool :=
  0x4e00 ≤ c.toNat && c.toNat ≤ 0x9fff

/-- `MISC_SYMBOLS = lambda c: "☀" <= c <= "⛿"` -/
def MISC_SYMBOLS (c : Char) : Bool :=
  0x2600 ≤ c.toNat && c.toNat ≤ 0x26FF

/-- `DINGBATS = lambda c: "✀" <= c <= "➿"` -/
def DINGBATS (c : Char) : Bool :=
  0x2700 ≤ c.toNat && c.toNat ≤ 0x27BF

/-- `EMOJIS = lambda c: "\U0001F300" <= c <= "\U0001F9FF"` -/
def EMOJIS (c : Char) : Bool :=
  0x1F300 ≤ c.toNat && c.toNat ≤ 0x1F9FF

/-- `is_valid_char` from `filter_garbage`. -/
def is_valid_char (c : Char) : Bool :=
  PRINTABLE_ASCII c || CONTROL_CHARS.contains c || CHINESE c ||
    MISC_SYMBOLS c || DINGBATS c || EMOJIS c

/-- Helper for the two `re.sub` collapses.  `capRunsAux c k cnt l` walks
`l` keeping a count `cnt` of how many consecutive copies of `c` ended the
output so far, and drops any copy of `c` that would extend a run beyond
`k`.  Keeping at most the first `k` characters of every maximal run of `c`
is exactly what replacing every (greedy, non-overlapping, hence maximal)
match of `c{k+1,}` by `c^k` does. -/
def capRunsAux (c : Char) (k : Nat) : Nat → List Char → List Char
  | _, [] => []
  | cnt, x :: xs =>
    if x = c then
      if cnt < k then x :: capRunsAux c k (cnt + 1) xs
      else capRunsAux c k (cnt + 1) xs
    else
      x :: capRunsAux c k 0 xs

/-- Cap every maximal run of `c` at length `k`. -/
def capRuns (c : Char) (k : Nat) (l : List Char) : List Char :=
  capRunsAux c k 0 l

/-- The character pipeline of `filter_garbage` on a list of characters:
keep the valid characters, then `re.sub(r"\n{3,}", "\n\n", ·)`
(cap newline runs at 2), then `re.sub(r" {2,}", " ", ·)`
(cap space runs at 1). -/
def cleanChars (l : List Char) : List Char :=
  capRuns ' ' 1 (capRuns '\n' 2 (l.filter is_valid_char))

/-- `filter_garbage` from `websearch.py`. -/
def filter_garbage (text : String) : String :=
  ⟨cleanChars text.data⟩

/-! ### `_summarize_content` -/

/-- The list `raw_content_list = [result["raw_content"] for result in
response["results"]]` that `_summarize_content` passes to `chain.batch`.
`chain.batch` performs exactly one generation call per element of its
argument, so this list is the list of generator requests, in order
(`None` elements included: the code builds `none_idx` to mask the
corresponding *outputs*, but the full list is handed to `batch`). -/
def summarizeRequests (response : SearchResponse) : List (Option String) :=
  response.results.map (fun result => result.raw_content)

/-- `_summarize_content` from `websearch.py`, with the LLM chain modelled
by the oracle `gen` (one call per element of `raw_content_list`).
`content_list[i]` is `None` exactly when `i ∈ none_idx`, i.e. when
`raw_content_list[i]` is `None`; the final loop overwrites
`result["content"]` only when `content_list[i]` is not `None`. -/
def summarize_content_fn (gen : Option String → String)
    (response : SearchResponse) : SearchResponse :=
  let raw_content_list := summarizeRequests response
  let summarized_content_list := raw_content_list.map gen
  let content_list := List.zipWith
    (fun rc msg => if rc.isNone then (none : Option String) else some msg)
    raw_content_list summarized_content_list
  { response with
    results := List.zipWith
      (fun result c =>
        match c with
        | none => result
        | some s => { result with content := some s })
      response.results content_list }

/-! ### `process_response` -/

/-- Line 100: `response["results"] = [result for result in
response["results"] if result["score"] >= args.filter_score]`. -/
def filterStage (filter_score : ℚ) (response : SearchResponse) : SearchResponse :=
  { response with
    results := response.results.filter (fun result => filter_score ≤ result.score) }

/-- Lines 102-106: for each surviving result, rewrite `content` and
`raw_content` through `filter_garbage` when they are not `None`. -/
def cleanResult (result : SearchResult) : SearchResult :=
  { result with
    content := result.content.map filter_garbage
    raw_content := result.raw_content.map filter_garbage }

/-- The content-cleaning loop over `response["results"]`. -/
def cleanStage (response : SearchResponse) : SearchResponse :=
  { response with results := response.results.map cleanResult }

/-- Python's f-string rendering of an `Optional[str]` value:
`None` prints as the text `"None"`. -/
def optStr : Option String → String
  | none => "None"
  | some s => s

/-- The three strings that lines 117-123 append to `content` for one
result: relevance score, URL, and content (with the trailing `\n` that the
f-string of the content line carries). -/
def sourceBlock (result : SearchResult) : List String :=
  ["Relevance Score: " ++ toString result.score,
   "URL: " ++ result.url,
   "Content: " ++ optStr result.content ++ "\n"]

/-- Lines 111-126: the `content` list of strings that `process_response`
accumulates before the final `"\n".join(content)`. -/
def buildContent (response : SearchResponse) (args : SearchArgs) : List String :=
  ["Query: " ++ response.query ++ "\n", "Sources:\n"]
    ++ response.results.flatMap sourceBlock
    ++ (if args.suggested_answer then ["Suggested Answer: " ++ response.answer] else [])

/-- Python's `str.join`: `joinStrings sep [a, b, c] = a ++ sep ++ b ++ sep ++ c`
models the final `"\n".join(content)` of `process_response`. -/
def joinStrings (sep : String) : List String → String
  | [] => ""
  | [a] => a
  | a :: b :: rest => a ++ sep ++ joinStrings sep (b :: rest)

/-- The state of `response` after the mutating stages of
`process_response` (filter, clean, optional summarize) have run. -/
def processedResponse (gen : Option String → String)
    (response : SearchResponse) (args : SearchArgs) : SearchResponse :=
  let response := filterStage args.filter_score response
  let response := cleanStage response
  if args.summarize_content then summarize_content_fn gen response else response

/-- `process_response` from `websearch.py`:
filter → clean → optional summarize → format, then `"\n".join(content)`. -/
def process_response (gen : Option String → String)
    (response : SearchResponse) (args : SearchArgs) : String :=
  joinStrings "\n" (buildContent (processedResponse gen response args) args)

/-! ### Auxiliary predicates and concrete test data

`okRunAux c k cnt l` holds when scanning `l`, starting inside a run of
`cnt` consecutive copies of `c`, never sees a copy of `c` that extends a
run of `c` beyond length `k`.  `okRunAux c k 0 l` therefore says: `l`
contains no run of more than `k` consecutive copies of `c`. -/
def okRunAux (c : Char) (k : Nat) : Nat → List Char → Bool
  | _, [] => true
  | cnt, x :: xs =>
    if x = c then decide (cnt < k) && okRunAux c k (cnt + 1) xs
    else okRunAux c k 0 xs

/-- `containsSeq needle hay` holds when `needle` occurs as a contiguous
subsequence of `hay` (used to state that a dropped result's text does not
occur anywhere in the formatted output). -/
def containsSeq (needle : List Char) : List Char → Bool
  | [] => needle.isEmpty
  | c :: rest => needle.isPrefixOf (c :: rest) || containsSeq needle rest

/-- `0.9` as a kernel-computable rational (`Rat.mk' 9 10 = 9/10`; the
normalised form avoids `Rat.div`, whose `Nat.gcd` normalisation the kernel
cannot unfold during `decide`). -/
def score09 : ℚ := Rat.mk' 9 10 (by decide) (by decide)

/-- `0.3` as a kernel-computable rational. -/
def score03 : ℚ := Rat.mk' 3 10 (by decide) (by decide)

/-- `0.5` (the default `filter_score`) as a kernel-computable rational. -/
def score05 : ℚ := Rat.mk' 1 2 (by decide) (by decide)

/-- A generator oracle for scenarios in which summarization is off (its
value is never consulted there). -/
def gen0 : Option String → String := fun _ => ""

/-- First provider result of the end-to-end scenario: score `0.9`. -/
def franceResult1 : SearchResult :=
  { url := "https://one.example"
    score := score09
    content := some "Paris is the capital of France."
    raw_content := none }

/-- Second provider result of the end-to-end scenario: score `0.3`. -/
def franceResult2 : SearchResult :=
  { url := "https://two.example"
    score := score03
    content := some "Unrelated page."
    raw_content := none }

/-- The provider response of the end-to-end scenario. -/
def franceResponse : SearchResponse :=
  { query := "capital of France"
    results := [franceResult1, franceResult2]
    answer := "Paris" }

/-- Arguments of the end-to-end scenario: `filter_score = 0.5`, no
summarization, no suggested answer. -/
def franceArgs : SearchArgs :=
  { query := "capital of France", filter_score := score05 }

/-- A response whose three results have
`raw_content = [some "text A", none, some "text C"]` (the summarize
pairing scenario of the spec). -/
def pairingResponse : SearchResponse :=
  { query := "q"
    results :=
      [{ url := "u1", score := score09, content := some "c1", raw_content := some "text A" },
       { url := "u2", score := score09, content := some "c2", raw_content := none },
       { url := "u3", score := score09, content := some "c3", raw_content := some "text C" }]
    answer := "a" }

/-- A result with both `content` and `raw_content` absent (`None`). -/
def absentResult : SearchResult :=
  { url := "u", score := score09, content := none, raw_content := none }

/-- A response whose single result has both `content` and `raw_content`
absent (`None`). -/
def absentResponse : SearchResponse :=
  { query := "q"
    results := [absentResult]
    answer := "a" }

/-- Arguments for the absent-fields scenario. -/
def absentArgs : SearchArgs := { query := "q", filter_score := score05 }

/-- Arguments for the absent-fields scenario with summarization on. -/
def absentSummArgs : SearchArgs :=
  { query := "q", filter_score := score05, summarize_content := true }

/-- The scenario arguments with `suggested_answer = True`. -/
def answerArgs : SearchArgs :=
  { query := "capital of France", filter_score := score05, suggested_answer := true }

/-- A response whose only result scores `0.3`, below the `0.5` threshold:
its result list empties out at the filter stage. -/
def lowScoreResponse : SearchResponse :=
  { query := "nothing relevant"
    results := [franceResult2]
    answer := "a" }

/-! ## Helper lemmas on `capRunsAux` -/

/-- A smaller starting run count is more permissive for `okRunAux`. -/
theorem okRunAux_mono (c : Char) (k : Nat) :
    ∀ (l : List Char) (cnt cnt' : Nat), cnt ≤ cnt' →
      okRunAux c k cnt' l = true → okRunAux c k cnt l = true := by
  intro l
  induction l with
  | nil => intro cnt cnt' _ _; rfl
  | cons x xs ih =>
    intro cnt cnt' hle h
    by_cases hx : x = c
    · simp only [okRunAux, if_pos hx, Bool.and_eq_true, decide_eq_true_eq] at h ⊢
      exact ⟨Nat.lt_of_le_of_lt hle h.1, ih _ _ (Nat.succ_le_succ hle) h.2⟩
    · simp only [okRunAux, if_neg hx] at h ⊢
      exact h

/-- A list that never extends a run of `c` beyond `k` is a fixed point of
`capRunsAux`. -/
theorem capRunsAux_of_okRunAux (c : Char) (k : Nat) :
    ∀ (l : List Char) (cnt : Nat), okRunAux c k cnt l = true →
      capRunsAux c k cnt l = l := by
  intro l
  induction l with
  | nil => intro cnt _; rfl
  | cons x xs ih =>
    intro cnt h
    by_cases hx : x = c
    · simp only [okRunAux, if_pos hx, Bool.and_eq_true, decide_eq_true_eq] at h
      simp only [capRunsAux, if_pos hx, if_pos h.1]
      rw [ih _ h.2]
    · simp only [okRunAux, if_neg hx] at h
      simp only [capRunsAux, if_neg hx]
      rw [ih _ h]

/-- The output of `capRunsAux` never extends a run of `c` beyond `k`. -/
theorem okRunAux_capRunsAux (c : Char) (k : Nat) :
    ∀ (l : List Char) (cnt : Nat), okRunAux c k cnt (capRunsAux c k cnt l) = true := by
  intro l
  induction l with
  | nil => intro cnt; rfl
  | cons x xs ih =>
    intro cnt
    by_cases hx : x = c
    · by_cases hcnt : cnt < k
      · simp only [capRunsAux, if_pos hx, if_pos hcnt, okRunAux,
          Bool.and_eq_true, decide_eq_true_eq]
        exact ⟨hcnt, ih (cnt + 1)⟩
      · simp only [capRunsAux, if_pos hx, if_neg hcnt]
        exact okRunAux_mono c k _ cnt (cnt + 1) (Nat.le_succ cnt) (ih (cnt + 1))
    · simp only [capRunsAux, if_neg hx, okRunAux]
      exact ih 0

/-- `capRunsAux` only drops characters. -/
theorem capRunsAux_sublist (c : Char) (k : Nat) :
    ∀ (l : List Char) (cnt : Nat), List.Sublist (capRunsAux c k cnt l) l := by
  intro l
  induction l with
  | nil => intro cnt; exact List.Sublist.refl _
  | cons x xs ih =>
    intro cnt
    by_cases hx : x = c
    · by_cases hcnt : cnt < k
      · simp only [capRunsAux, if_pos hx, if_pos hcnt]
        exact List.Sublist.cons₂ x (ih (cnt + 1))
      · simp only [capRunsAux, if_pos hx, if_neg hcnt]
        exact List.Sublist.cons x (ih (cnt + 1))
    · simp only [capRunsAux, if_neg hx]
      exact List.Sublist.cons₂ x (ih 0)

/-- Capping runs of a *different* character `c'` (keeping at least one
copy of every nonempty run, `1 ≤ k'`) cannot create a too-long run of `c`.
The side condition `cnt' ≠ 0 → cnt = 0` records that the scan cannot be in
the middle of a run of `c` and of `c'` at the same time. -/
theorem okRunAux_capRunsAux_other (c c' : Char) (k k' : Nat)
    (hcc : c ≠ c') (hk' : 1 ≤ k') :
    ∀ (l : List Char) (cnt cnt' : Nat), (cnt' ≠ 0 → cnt = 0) →
      okRunAux c k cnt l = true →
      okRunAux c k cnt (capRunsAux c' k' cnt' l) = true := by
  intro l
  induction l with
  | nil => intro cnt cnt' _ _; rfl
  | cons x xs ih =>
    intro cnt cnt' hinv h
    by_cases hx' : x = c'
    · have hx : ¬x = c := by subst hx'; exact fun hh => hcc hh.symm
      simp only [okRunAux, if_neg hx] at h
      by_cases hcnt' : cnt' < k'
      · simp only [capRunsAux, if_pos hx', if_pos hcnt', okRunAux, if_neg hx]
        exact ih 0 (cnt' + 1) (fun _ => rfl) h
      · have hcnt0 : cnt = 0 := hinv (by omega)
        simp only [capRunsAux, if_pos hx', if_neg hcnt']
        rw [hcnt0]
        exact ih 0 (cnt' + 1) (fun _ => rfl) h
    · by_cases hx : x = c
      · simp only [okRunAux, if_pos hx, Bool.and_eq_true, decide_eq_true_eq] at h
        simp only [capRunsAux, if_neg hx', okRunAux, if_pos hx,
          Bool.and_eq_true, decide_eq_true_eq]
        exact ⟨h.1, ih (cnt + 1) 0 (fun hh => absurd rfl hh) h.2⟩
      · simp only [okRunAux, if_neg hx] at h
        simp only [capRunsAux, if_neg hx', okRunAux]
        rw [if_neg hx]
        exact ih 0 0 (fun hh => absurd rfl hh) h

/-- Capping runs is idempotent. -/
theorem capRuns_idem (c : Char) (k : Nat) (l : List Char) :
    capRuns c k (capRuns c k l) = capRuns c k l :=
  capRunsAux_of_okRunAux c k _ 0 (okRunAux_capRunsAux c k l 0)

/-- Every character surviving `cleanChars` passed the `is_valid_char`
filter. -/
theorem mem_cleanChars_valid (l : List Char) :
    ∀ a ∈ cleanChars l, is_valid_char a = true := by
  intro a ha
  have h1 : a ∈ capRuns '\n' 2 (l.filter is_valid_char) :=
    (capRunsAux_sublist ' ' 1 _ 0).subset ha
  have h2 : a ∈ l.filter is_valid_char :=
    (capRunsAux_sublist '\n' 2 _ 0).subset h1
  exact List.of_mem_filter h2

/-- The output of `cleanChars` has no run of more than two newlines. -/
theorem okRunAux_newline_cleanChars (l : List Char) :
    okRunAux '\n' 2 0 (cleanChars l) = true := by
  apply okRunAux_capRunsAux_other '\n' ' ' 2 1 (by decide) (by decide)
  · intro hh; rfl
  · exact okRunAux_capRunsAux '\n' 2 _ 0

/-- The output of `cleanChars` has no run of more than one space. -/
theorem okRunAux_space_cleanChars (l : List Char) :
    okRunAux ' ' 1 0 (cleanChars l) = true :=
  okRunAux_capRunsAux ' ' 1 _ 0

/-- `cleanChars` is idempotent. -/
theorem cleanChars_idem (l : List Char) :
    cleanChars (cleanChars l) = cleanChars l := by
  conv_lhs => rw [cleanChars]
  rw [List.filter_eq_self.mpr (mem_cleanChars_valid l)]
  rw [show capRuns '\n' 2 (cleanChars l) = cleanChars l from
    capRunsAux_of_okRunAux '\n' 2 _ 0 (okRunAux_newline_cleanChars l)]
  rw [show capRuns ' ' 1 (cleanChars l) = cleanChars l from
    capRunsAux_of_okRunAux ' ' 1 _ 0 (okRunAux_space_cleanChars l)]

/-- C3: the clean operation is idempotent: for every string `s`,
`filter_garbage (filter_garbage s) = filter_garbage s`. -/
theorem filter_garbage_idempotent (s : String) :
    filter_garbage (filter_garbage s) = filter_garbage s :=
  congrArg String.mk (cleanChars_idem s.data)

/-- C2: line 100 removes exactly the results scoring strictly below the
threshold: every retained result has `score ≥ t`, every result of the
input with `score ≥ t` is retained, every retained result comes from the
input with `score ≥ t`, and the survivors appear in their original
relative order (they form a sublist of the input result list). -/
theorem filter_score_invariant (r : SearchResponse) (t : ℚ) :
    (∀ result ∈ (filterStage t r).results, t ≤ result.score) ∧
    (∀ result ∈ r.results, t ≤ result.score → result ∈ (filterStage t r).results) ∧
    (∀ result ∈ (filterStage t r).results, result ∈ r.results) ∧
    List.Sublist (filterStage t r).results r.results := by
  have hres : (filterStage t r).results
      = r.results.filter (fun result => decide (t ≤ result.score)) := rfl
  rw [hres]
  refine ⟨?_, ?_, ?_, ?_⟩
  · intro result h
    simpa using (List.mem_filter.mp h).2
  · intro result h hs
    exact List.mem_filter.mpr ⟨h, by simpa using hs⟩
  · intro result h
    exact (List.mem_filter.mp h).1
  · exact List.filter_sublist _

/-- Witness for C2 at the end-to-end scenario data: the `0.9` result
survives a `0.5` threshold and scores at least `0.5`. -/
theorem filter_score_invariant_witness :
    franceResult1 ∈ (filterStage score05 franceResponse).results ∧
    score05 ≤ franceResult1.score :=
  ⟨(filter_score_invariant franceResponse score05).2.1 franceResult1 (by decide) (by decide),
   (filter_score_invariant franceResponse score05).1 franceResult1 (by decide)⟩

/-- Capping runs (keeping at least one character of each run) leaves a
one-character list unchanged. -/
theorem capRunsAux_singleton (c' c : Char) (k : Nat) (hk : 1 ≤ k) :
    capRunsAux c' k 0 [c] = [c] := by
  by_cases h : c = c'
  · simp [capRunsAux, h, hk]
    omega
  · simp [capRunsAux, h]

/-- C4: the allow-list of `is_valid_char` is exactly printable ASCII
(32-126), newline/tab/carriage-return, CJK ideographs (U+4E00-U+9FFF),
miscellaneous symbols (U+2600-U+26FF), dingbats (U+2700-U+27BF) and the
emoji block (U+1F300-U+1F9FF); every character surviving `filter_garbage`
is in that allow-list; on a single character, `filter_garbage` keeps it
exactly when it is allow-listed; in particular U+0007 BELL is removed and
the CJK character `中` is preserved.  (The whitespace-run collapse, which
additionally drops *allow-listed* spaces and newlines from long runs, is
specified separately and covered by the whitespace-collapse theorem.) -/
theorem filter_garbage_allowlist :
    (∀ c : Char, is_valid_char c = true ↔
      ((32 ≤ c.toNat ∧ c.toNat ≤ 126) ∨ c = '\n' ∨ c = '\t' ∨ c = '\r' ∨
        (0x4E00 ≤ c.toNat ∧ c.toNat ≤ 0x9FFF) ∨
        (0x2600 ≤ c.toNat ∧ c.toNat ≤ 0x26FF) ∨
        (0x2700 ≤ c.toNat ∧ c.toNat ≤ 0x27BF) ∨
        (0x1F300 ≤ c.toNat ∧ c.toNat ≤ 0x1F9FF))) ∧
    (∀ s : String, ∀ c ∈ (filter_garbage s).data, is_valid_char c = true) ∧
    (∀ c : Char, filter_garbage ⟨[c]⟩ =
      if is_valid_char c then (⟨[c]⟩ : String) else "") ∧
    filter_garbage "a\x07b" = "ab" ∧
    filter_garbage "中" = "中" := by
  refine ⟨?_, ?_, ?_, by decide, by decide⟩
  · intro c
    simp [is_valid_char, PRINTABLE_ASCII, CONTROL_CHARS, CHINESE, MISC_SYMBOLS,
      DINGBATS, EMOJIS, List.contains, List.elem_eq_mem, or_assoc]
  · intro s c hc
    exact mem_cleanChars_valid s.data c hc
  · intro c
    by_cases h : is_valid_char c
    · rw [if_pos h]
      show String.mk (cleanChars [c]) = ⟨[c]⟩
      unfold cleanChars capRuns
      rw [List.filter_cons_of_pos h, List.filter_nil,
        capRunsAux_singleton '\n' c 2 (by decide),
        capRunsAux_singleton ' ' c 1 (by decide)]
    · rw [if_neg h]
      show String.mk (cleanChars [c]) = ""
      unfold cleanChars capRuns
      rw [List.filter_cons_of_neg (by simpa using h), List.filter_nil]
      rfl

/-- Witness for C4 instantiating its universally quantified parts at
concrete characters and strings. -/
theorem filter_garbage_allowlist_witness :
    (is_valid_char '中' = true ↔
      ((32 ≤ '中'.toNat ∧ '中'.toNat ≤ 126) ∨ '中' = '\n' ∨ '中' = '\t' ∨ '中' = '\r' ∨
        (0x4E00 ≤ '中'.toNat ∧ '中'.toNat ≤ 0x9FFF) ∨
        (0x2600 ≤ '中'.toNat ∧ '中'.toNat ≤ 0x26FF) ∨
        (0x2700 ≤ '中'.toNat ∧ '中'.toNat ≤ 0x27BF) ∨
        (0x1F300 ≤ '中'.toNat ∧ '中'.toNat ≤ 0x1F9FF))) ∧
    ('\x07' ∈ (filter_garbage "a\x07b").data → False) ∧
    filter_garbage ⟨['\x07']⟩ = (if is_valid_char '\x07' then (⟨['\x07']⟩ : String) else "") :=
  ⟨filter_garbage_allowlist.1 '中',
   fun hmem => by
      have := filter_garbage_allowlist.2.1 "a\x07b" '\x07' hmem
      exact absurd this (by decide),
   filter_garbage_allowlist.2.2.1 '\x07'⟩

/-- A character different from the run character passes through
`capRunsAux` and resets the run count. -/
theorem capRunsAux_cons_ne (c' c : Char) (k cnt : Nat) (h : c ≠ c')
    (l : List Char) :
    capRunsAux c' k cnt (c :: l) = c :: capRunsAux c' k 0 l := by
  simp [capRunsAux, h]

/-- A list free of the run character is a fixed point of `capRunsAux`. -/
theorem capRunsAux_of_not_mem (c : Char) (k : Nat) :
    ∀ (l : List Char) (cnt : Nat), c ∉ l → capRunsAux c k cnt l = l := by
  intro l
  induction l with
  | nil => intro cnt _; rfl
  | cons x xs ih =>
    intro cnt h
    have hx : ¬x = c := by
      intro hh; subst hh; exact h (List.mem_cons_self x xs)
    simp [capRunsAux, hx, ih 0 (fun hm => h (List.mem_cons_of_mem x hm))]

/-- Unfolding of `capRunsAux` at a copy of the run character. -/
theorem capRunsAux_cons_self (c : Char) (k cnt : Nat) (l : List Char) :
    capRunsAux c k cnt (c :: l) =
      if cnt < k then c :: capRunsAux c k (cnt + 1) l
      else capRunsAux c k (cnt + 1) l := by
  simp [capRunsAux]

/-- `capRunsAux` on a run of `n` copies of the run character keeps the
first `k - cnt` of them and continues past the run with the count grown
by `n`. -/
theorem capRunsAux_replicate (c : Char) (k : Nat) :
    ∀ (n cnt : Nat) (l : List Char),
      capRunsAux c k cnt (List.replicate n c ++ l) =
        List.replicate (min n (k - cnt)) c ++ capRunsAux c k (cnt + n) l := by
  intro n
  induction n with
  | zero => intro cnt l; simp
  | succ n ih =>
    intro cnt l
    rw [List.replicate_succ, List.cons_append, capRunsAux_cons_self]
    by_cases h : cnt < k
    · rw [if_pos h, ih (cnt + 1) l,
        show min (n + 1) (k - cnt) = min n (k - (cnt + 1)) + 1 from by omega,
        List.replicate_succ, List.cons_append,
        show cnt + 1 + n = cnt + (n + 1) from by omega]
    · rw [if_neg h, ih (cnt + 1) l,
        show min (n + 1) (k - cnt) = 0 from by omega,
        show min n (k - (cnt + 1)) = 0 from by omega,
        show cnt + 1 + n = cnt + (n + 1) from by omega]

/-- C5: after character filtering, `filter_garbage` collapses every run
of three or more newlines to exactly two and every run of two or more
spaces to a single space: proved for arbitrary run lengths in context
`a…b`, together with the guarantee that no output of `filter_garbage`
contains a run of more than two newlines or more than one space, and the
two concrete examples of the spec. -/
theorem filter_garbage_whitespace_collapse :
    (∀ n : Nat, 3 ≤ n →
      filter_garbage ⟨'a' :: (List.replicate n '\n' ++ ['b'])⟩ = "a\n\nb") ∧
    (∀ m : Nat, 2 ≤ m →
      filter_garbage ⟨'a' :: (List.replicate m ' ' ++ ['b'])⟩ = "a b") ∧
    (∀ s : String, okRunAux '\n' 2 0 (filter_garbage s).data = true ∧
      okRunAux ' ' 1 0 (filter_garbage s).data = true) ∧
    filter_garbage "a\n\n\n\nb" = "a\n\nb" ∧
    filter_garbage "a    b" = "a b" := by
  refine ⟨?_, ?_, ?_, by decide, by decide⟩
  · intro n hn
    have hfil : List.filter is_valid_char ('a' :: (List.replicate n '\n' ++ ['b']))
        = 'a' :: (List.replicate n '\n' ++ ['b']) := by
      apply List.filter_eq_self.mpr
      intro a ha
      simp only [List.mem_cons, List.mem_append, List.mem_replicate,
        List.not_mem_nil, or_false] at ha
      rcases ha with rfl | ⟨-, rfl⟩ | rfl <;> decide
    show String.mk (cleanChars ('a' :: (List.replicate n '\n' ++ ['b']))) = "a\n\nb"
    unfold cleanChars capRuns
    rw [hfil, capRunsAux_cons_ne '\n' 'a' 2 0 (by decide),
      capRunsAux_replicate '\n' 2 n 0 ['b'],
      capRunsAux_cons_ne '\n' 'b' 2 (0 + n) (by decide),
      show min n (2 - 0) = 2 from by omega]
    decide
  · intro m hm
    have hfil : List.filter is_valid_char ('a' :: (List.replicate m ' ' ++ ['b']))
        = 'a' :: (List.replicate m ' ' ++ ['b']) := by
      apply List.filter_eq_self.mpr
      intro a ha
      simp only [List.mem_cons, List.mem_append, List.mem_replicate,
        List.not_mem_nil, or_false] at ha
      rcases ha with rfl | ⟨-, rfl⟩ | rfl <;> decide
    have hnl : '\n' ∉ 'a' :: (List.replicate m ' ' ++ ['b']) := by
      intro h
      simp only [List.mem_cons, List.mem_append, List.mem_replicate,
        List.not_mem_nil, or_false] at h
      rcases h with h | ⟨-, h⟩ | h <;> exact absurd h (by decide)
    show String.mk (cleanChars ('a' :: (List.replicate m ' ' ++ ['b']))) = "a b"
    unfold cleanChars capRuns
    rw [hfil, capRunsAux_of_not_mem '\n' 2 _ 0 hnl,
      capRunsAux_cons_ne ' ' 'a' 1 0 (by decide),
      capRunsAux_replicate ' ' 1 m 0 ['b'],
      capRunsAux_cons_ne ' ' 'b' 1 (0 + m) (by decide),
      show min m (1 - 0) = 1 from by omega]
    decide
  · intro s
    exact ⟨okRunAux_newline_cleanChars s.data, okRunAux_space_cleanChars s.data⟩

/-- Witness for C5 at run lengths `4` (newlines) and `4` (spaces). -/
theorem filter_garbage_whitespace_collapse_witness :
    3 ≤ 4 ∧ filter_garbage ⟨'a' :: (List.replicate 4 '\n' ++ ['b'])⟩ = "a\n\nb" ∧
    2 ≤ 4 ∧ filter_garbage ⟨'a' :: (List.replicate 4 ' ' ++ ['b'])⟩ = "a b" :=
  ⟨by decide, filter_garbage_whitespace_collapse.1 4 (by decide), by decide,
   filter_garbage_whitespace_collapse.2.1 4 (by decide)⟩

/-- List-level computation of the zip in `_summarize_content`: updating
each result from the generator output paired with its own
`raw_content`. -/
theorem summarize_zip_eq (gen : Option String → String) :
    ∀ l : List SearchResult,
      List.zipWith
        (fun result c =>
          match c with
          | none => result
          | some s => { result with content := some s })
        l
        (List.zipWith
          (fun rc msg => if rc.isNone then (none : Option String) else some msg)
          (l.map (fun result => result.raw_content))
          ((l.map (fun result => result.raw_content)).map gen)) =
      l.map (fun result =>
        match result.raw_content with
        | none => result
        | some rc => { result with content := some (gen (some rc)) }) := by
  intro l
  induction l with
  | nil => rfl
  | cons x xs ih =>
    simp only [List.map_cons, List.zipWith_cons_cons]
    rw [ih]
    cases hx : x.raw_content with
    | none => simp [hx]
    | some rc => simp [hx]

/-- Functional characterization of `_summarize_content`: every result is
rewritten from the generator answer for its *own* `raw_content` (the
index pairing through `none_idx` never shifts), and a result whose
`raw_content` is absent is left unchanged. -/
theorem summarize_content_fn_results (gen : Option String → String)
    (r : SearchResponse) :
    (summarize_content_fn gen r).results =
      r.results.map (fun result =>
        match result.raw_content with
        | none => result
        | some rc => { result with content := some (gen (some rc)) }) := by
  simp only [summarize_content_fn, summarizeRequests]
  exact summarize_zip_eq gen r.results

/-- C1 counterexample: on the response whose results have
`raw_content = [some "text A", none, some "text C"]`, the list handed to
`chain.batch` — one generator invocation per element — is the *full*
three-element list, absent entry included.  The claim requires the
generator to be invoked exactly once per result with present
`raw_content` (twice here) and never for an absent one; the code invokes
it three times, once for the absent entry. -/
theorem summarize_sends_absent_requests :
    summarizeRequests pairingResponse = [some "text A", none, some "text C"] ∧
    (none : Option String) ∈ summarizeRequests pairingResponse ∧
    (summarizeRequests pairingResponse).length = 3 ∧
    (pairingResponse.results.filter
      (fun result => result.raw_content.isSome)).length = 2 :=
  ⟨rfl, by decide, rfl, rfl⟩

/-- C1 (amended): `_summarize_content` invokes the generator exactly once
per result in the result list — including results whose `raw_content` is
absent, whose generator outputs are discarded — preserving a strict
one-to-one index pairing between requests and results: each result is
updated from the generator answer for its own `raw_content`, and every
result with absent `raw_content` keeps its `content` (and everything
else) unchanged. -/
theorem summarize_pairing_amended (gen : Option String → String)
    (r : SearchResponse) :
    (summarizeRequests r).length = r.results.length ∧
    (summarize_content_fn gen r).results =
      r.results.map (fun result =>
        match result.raw_content with
        | none => result
        | some rc => { result with content := some (gen (some rc)) }) ∧
    (summarize_content_fn gen r).query = r.query ∧
    (summarize_content_fn gen r).answer = r.answer :=
  ⟨by simp [summarizeRequests], summarize_content_fn_results gen r, rfl, rfl⟩

/-- `_summarize_content` never touches `raw_content`. -/
theorem summarize_content_fn_raw_content (gen : Option String → String)
    (r : SearchResponse) :
    (summarize_content_fn gen r).results.map (fun result => result.raw_content) =
      r.results.map (fun result => result.raw_content) := by
  rw [summarize_content_fn_results, List.map_map]
  apply List.map_congr_left
  intro x _
  cases hx : x.raw_content <;> simp [Function.comp, hx]

/-- `_summarize_content` never touches `url` or `score`. -/
theorem summarize_content_fn_url_score (gen : Option String → String)
    (r : SearchResponse) :
    (summarize_content_fn gen r).results.map (fun result => (result.url, result.score)) =
      r.results.map (fun result => (result.url, result.score)) := by
  rw [summarize_content_fn_results, List.map_map]
  apply List.map_congr_left
  intro x _
  cases hx : x.raw_content <;> simp [Function.comp, hx]

/-- The cleaning loop never touches `url` or `score`. -/
theorem cleanResult_url_score (l : List SearchResult) :
    (l.map cleanResult).map (fun result => (result.url, result.score)) =
      l.map (fun result => (result.url, result.score)) := by
  rw [List.map_map]
  apply List.map_congr_left
  intro x _
  rfl

/-- The mutating stages never touch the `query` field. -/
theorem processedResponse_query (gen : Option String → String)
    (r : SearchResponse) (args : SearchArgs) :
    (processedResponse gen r args).query = r.query := by
  unfold processedResponse
  cases hb : args.summarize_content
  · simp [hb, cleanStage, filterStage]
  · simp [hb, summarize_content_fn, cleanStage, filterStage]

/-- The mutating stages never touch the `answer` field. -/
theorem processedResponse_answer (gen : Option String → String)
    (r : SearchResponse) (args : SearchArgs) :
    (processedResponse gen r args).answer = r.answer := by
  unfold processedResponse
  cases hb : args.summarize_content
  · simp [hb, cleanStage, filterStage]
  · simp [hb, summarize_content_fn, cleanStage, filterStage]

/-- C10: processing only changes result-list membership and the
`content`/`raw_content` of retained results: the response's `query` and
`answer` and every retained result's `url` and `score` survive all stages
unchanged (the retained results' `url`/`score` sequence equals that of
the bare filter stage), and the summarize stage never rewrites
`raw_content`. -/
theorem process_frame_conditions (gen : Option String → String)
    (r : SearchResponse) (args : SearchArgs) :
    (processedResponse gen r args).query = r.query ∧
    (processedResponse gen r args).answer = r.answer ∧
    (processedResponse gen r args).results.map (fun result => (result.url, result.score)) =
      (filterStage args.filter_score r).results.map
        (fun result => (result.url, result.score)) ∧
    (summarize_content_fn gen r).results.map (fun result => result.raw_content) =
      r.results.map (fun result => result.raw_content) := by
  refine ⟨processedResponse_query gen r args, processedResponse_answer gen r args,
    ?_, summarize_content_fn_raw_content gen r⟩
  · unfold processedResponse
    cases hb : args.summarize_content
    · simp only [hb, Bool.false_eq_true, if_false]
      exact cleanResult_url_score (filterStage args.filter_score r).results
    · simp only [hb, if_true]
      rw [show (cleanStage (filterStage args.filter_score r)) =
          { filterStage args.filter_score r with
            results := (filterStage args.filter_score r).results.map cleanResult } from rfl]
      rw [summarize_content_fn_url_score gen]
      exact cleanResult_url_score (filterStage args.filter_score r).results

/-- Syntactic shape of the accumulated `content` list. -/
theorem buildContent_eq (p : SearchResponse) (args : SearchArgs) :
    buildContent p args =
      ("Query: " ++ p.query ++ "\n") :: "Sources:\n" ::
        (p.results.flatMap sourceBlock ++
          (if args.suggested_answer then ["Suggested Answer: " ++ p.answer] else [])) := rfl

/-- Joining the `content` list always yields the query header line, a
blank separator, and the `Sources` label, followed by the rest. -/
theorem joinStrings_header (q : String) (tail : List String) :
    ∃ rest : String,
      joinStrings "\n" (("Query: " ++ q ++ "\n") :: "Sources:\n" :: tail) =
        "Query: " ++ q ++ "\n\nSources:\n" ++ rest := by
  cases tail with
  | nil =>
    refine ⟨"", ?_⟩
    show ("Query: " ++ q ++ "\n") ++ "\n" ++ joinStrings "\n" ["Sources:\n"] =
      "Query: " ++ q ++ "\n\nSources:\n" ++ ""
    apply String.ext
    have h1 : ("\n\nSources:\n" : String).data =
        ("\n" : String).data ++ (("\n" : String).data ++ ("Sources:\n" : String).data) := by
      decide
    simp [joinStrings, String.data_append, h1]
  | cons t ts =>
    refine ⟨"\n" ++ joinStrings "\n" (t :: ts), ?_⟩
    show ("Query: " ++ q ++ "\n") ++ "\n" ++ joinStrings "\n" ("Sources:\n" :: t :: ts) =
      "Query: " ++ q ++ "\n\nSources:\n" ++ ("\n" ++ joinStrings "\n" (t :: ts))
    rw [show joinStrings "\n" ("Sources:\n" :: t :: ts) =
      "Sources:\n" ++ "\n" ++ joinStrings "\n" (t :: ts) from rfl]
    apply String.ext
    have h1 : ("\n\nSources:\n" : String).data =
        ("\n" : String).data ++ (("\n" : String).data ++ ("Sources:\n" : String).data) := by
      decide
    simp [String.data_append, h1]

/-- The formatted output always begins with the query header and the
`Sources` label. -/
theorem process_response_header (gen : Option String → String)
    (r : SearchResponse) (args : SearchArgs) :
    ∃ rest : String, process_response gen r args =
      "Query: " ++ r.query ++ "\n\nSources:\n" ++ rest := by
  unfold process_response
  rw [buildContent_eq, processedResponse_query]
  exact joinStrings_header r.query _

/-- Each result contributes exactly three lines. -/
theorem flatMap_sourceBlock_length (l : List SearchResult) :
    (l.flatMap sourceBlock).length = 3 * l.length := by
  induction l with
  | nil => rfl
  | cons x xs ih =>
    simp only [List.flatMap_cons, List.length_append, ih,
      show (sourceBlock x).length = 3 from rfl, List.length_cons]
    omega

/-- The `content` list carries, for the `i`-th surviving result, its
three lines at position `2 + 3 * i`: in result order, after the two
header entries. -/
theorem buildContent_block (p : SearchResponse) (args : SearchArgs)
    (i : Nat) (h : i < p.results.length) :
    ∃ pre post : List String,
      buildContent p args = pre ++ sourceBlock (p.results.get ⟨i, h⟩) ++ post ∧
      pre.length = 2 + 3 * i := by
  refine ⟨["Query: " ++ p.query ++ "\n", "Sources:\n"]
      ++ (p.results.take i).flatMap sourceBlock,
    (p.results.drop (i + 1)).flatMap sourceBlock
      ++ (if args.suggested_answer then ["Suggested Answer: " ++ p.answer] else []),
    ?_, ?_⟩
  · have h2 := List.getElem_cons_drop p.results i h
    unfold buildContent
    conv_lhs => rw [← List.take_append_drop i p.results, ← h2]
    simp only [List.flatMap_append, List.flatMap_cons, List.append_assoc,
      List.cons_append, List.nil_append]
    rfl
  · simp only [List.length_append, List.length_cons, List.length_nil,
      flatMap_sourceBlock_length, List.length_take]
    omega

/-- C6: the formatted output is a single text block: it begins with a
header line naming the query and a `Sources` label, and for each
surviving result, in result order, the `content` line list carries its
three lines (relevance score, URL, content) as the block at position
`2 + 3 * i`.  In the end-to-end scenario — query `capital of France`,
provider scores `0.9` and `0.3`, `filter_score = 0.5` — the output equals
the explicit single-source-block string, the line list contains exactly
one `URL:` line, and the `0.3` entry's host never occurs in the output.
(`9/10` is this model's rendering of the score `0.9`; the spec leaves
in-line layout free.) -/
theorem format_output_structure :
    (∀ (gen : Option String → String) (r : SearchResponse) (args : SearchArgs),
      ∃ rest : String, process_response gen r args =
        "Query: " ++ r.query ++ "\n\nSources:\n" ++ rest) ∧
    (∀ (gen : Option String → String) (r : SearchResponse) (args : SearchArgs)
      (i : Nat) (h : i < (processedResponse gen r args).results.length),
      ∃ pre post : List String,
        buildContent (processedResponse gen r args) args =
          pre ++ sourceBlock ((processedResponse gen r args).results.get ⟨i, h⟩) ++ post ∧
        pre.length = 2 + 3 * i) ∧
    process_response gen0 franceResponse franceArgs =
      "Query: capital of France\n\nSources:\n\nRelevance Score: 9/10\nURL: https://one.example\nContent: Paris is the capital of France.\n" ∧
    (buildContent (processedResponse gen0 franceResponse franceArgs) franceArgs).countP
      (fun line => ("URL:" : String).data.isPrefixOf line.data) = 1 ∧
    containsSeq ("two.example" : String).data
      (process_response gen0 franceResponse franceArgs).data = false ∧
    franceResult1.score = 9/10 ∧ franceResult2.score = 3/10 ∧
    franceArgs.filter_score = 1/2 := by
  refine ⟨?_, ?_, by decide, by decide, by decide, ?_, ?_, ?_⟩
  · intro gen r args
    exact process_response_header gen r args
  · intro gen r args i h
    exact buildContent_block (processedResponse gen r args) args i h
  · show score09 = 9/10
    apply Rat.ext <;> norm_num [score09]
  · show score03 = 3/10
    apply Rat.ext <;> norm_num [score03]
  · show score05 = 1/2
    apply Rat.ext <;> norm_num [score05]

/-- Witness for C6 instantiating the universally quantified parts: the
header of the scenario output and the source block of its surviving
result at position `2 + 3 * 0`. -/
theorem format_output_structure_witness :
    (∃ rest : String, process_response gen0 franceResponse franceArgs =
      "Query: " ++ franceResponse.query ++ "\n\nSources:\n" ++ rest) ∧
    (∃ pre post : List String,
      buildContent (processedResponse gen0 franceResponse franceArgs) franceArgs =
        pre ++ sourceBlock ((processedResponse gen0 franceResponse franceArgs).results.get
          ⟨0, by decide⟩) ++ post ∧
      pre.length = 2 + 3 * 0) :=
  ⟨format_output_structure.1 gen0 franceResponse franceArgs,
   format_output_structure.2.1 gen0 franceResponse franceArgs 0 (by decide)⟩

/-- C7: the formatter emits a `Suggested Answer` line exactly when the
`suggested_answer` option is set: with the option off, no line of the
accumulated `content` list begins with `Suggested Answer` (even though
the response carries an `answer`); with it on, the last line is
`Suggested Answer: ` followed by the provider's answer. -/
theorem suggested_answer_toggle (gen : Option String → String)
    (r : SearchResponse) (args : SearchArgs) :
    (args.suggested_answer = false →
      ∀ line ∈ buildContent (processedResponse gen r args) args,
        ("Suggested Answer" : String).data.isPrefixOf line.data = false) ∧
    (args.suggested_answer = true →
      (buildContent (processedResponse gen r args) args).getLast? =
        some ("Suggested Answer: " ++ r.answer)) := by
  constructor
  · intro hb line hline
    rw [buildContent_eq] at hline
    simp only [hb, Bool.false_eq_true, if_false, List.append_nil, List.mem_cons,
      List.mem_append, List.mem_flatMap, sourceBlock, List.not_mem_nil,
      or_false] at hline
    rcases hline with rfl | rfl | ⟨result, -, rfl | rfl | rfl⟩ <;> rfl
  · intro hb
    rw [buildContent_eq, processedResponse_answer]
    rw [show (if args.suggested_answer then ["Suggested Answer: " ++ r.answer] else [])
        = ["Suggested Answer: " ++ r.answer] from by rw [hb]; rfl]
    rw [show ("Query: " ++ (processedResponse gen r args).query ++ "\n") :: "Sources:\n" ::
          ((processedResponse gen r args).results.flatMap sourceBlock
            ++ ["Suggested Answer: " ++ r.answer])
        = (("Query: " ++ (processedResponse gen r args).query ++ "\n") :: "Sources:\n" ::
            (processedResponse gen r args).results.flatMap sourceBlock)
          ++ ["Suggested Answer: " ++ r.answer] from by simp]
    exact List.getLast?_concat _

/-- Witness for C7: with the option off no line of the scenario output
starts with `Suggested Answer`; with it on the last line carries the
provider's answer. -/
theorem suggested_answer_toggle_witness :
    ("Suggested Answer" : String).data.isPrefixOf ("Sources:\n" : String).data = false ∧
    (buildContent (processedResponse gen0 franceResponse answerArgs) answerArgs).getLast? =
      some ("Suggested Answer: " ++ franceResponse.answer) :=
  ⟨(suggested_answer_toggle gen0 franceResponse franceArgs).1 rfl "Sources:\n" (by decide),
   (suggested_answer_toggle gen0 franceResponse answerArgs).2 rfl⟩

/-- C8: absent (`None`) `content`/`raw_content` fields flow through every
stage without being touched and without error: the cleaning loop skips
them (an absent field stays absent), `_summarize_content` leaves a result
with absent `raw_content` completely unchanged, an absent `content`
surfaces in the output as the Python rendering `Content: None`, and the
whole pipeline produces the expected formatted string on an
all-absent-fields response, with and without summarization. -/
theorem absent_fields_propagate (gen : Option String → String)
    (r : SearchResponse) (args : SearchArgs) :
    (∀ result : SearchResult, result.content = none →
      (cleanResult result).content = none) ∧
    (∀ result : SearchResult, result.raw_content = none →
      (cleanResult result).raw_content = none) ∧
    (∀ result ∈ r.results, result.raw_content = none →
      (summarize_content_fn gen r).results =
        r.results.map (fun x =>
          match x.raw_content with
          | none => x
          | some rc => { x with content := some (gen (some rc)) })) ∧
    (∀ result ∈ (processedResponse gen r args).results, result.content = none →
      ("Content: None\n" : String) ∈
        buildContent (processedResponse gen r args) args) ∧
    process_response gen0 absentResponse absentArgs =
      "Query: q\n\nSources:\n\nRelevance Score: 9/10\nURL: u\nContent: None\n" ∧
    process_response gen0 absentResponse absentSummArgs =
      "Query: q\n\nSources:\n\nRelevance Score: 9/10\nURL: u\nContent: None\n" := by
  refine ⟨?_, ?_, ?_, ?_, by decide, by decide⟩
  · intro result h
    simp [cleanResult, h]
  · intro result h
    simp [cleanResult, h]
  · intro result _ _
    exact summarize_content_fn_results gen r
  · intro result hres hc
    have hmem : ("Content: None\n" : String) ∈ sourceBlock result := by
      rw [show ("Content: None\n" : String)
          = "Content: " ++ optStr result.content ++ "\n" from by rw [hc]; decide]
      simp [sourceBlock]
    rw [buildContent_eq]
    exact List.mem_cons_of_mem _ (List.mem_cons_of_mem _
      (List.mem_append_left _ (List.mem_flatMap.mpr ⟨result, hres, hmem⟩)))

/-- Witness for C8: the all-absent result keeps its absent fields through
cleaning, and the `Content: None` line is in the output of the
all-absent scenario. -/
theorem absent_fields_propagate_witness :
    (cleanResult absentResult).content = none ∧
    (cleanResult absentResult).raw_content = none ∧
    ("Content: None\n" : String) ∈
      buildContent (processedResponse gen0 absentResponse absentArgs) absentArgs :=
  ⟨(absent_fields_propagate gen0 absentResponse absentArgs).1 absentResult rfl,
   (absent_fields_propagate gen0 absentResponse absentArgs).2.1 absentResult rfl,
   (absent_fields_propagate gen0 absentResponse absentArgs).2.2.2.1
     { absentResult with content := none } (by decide) rfl⟩

/-- After an empty filter stage, every later stage still has an empty
result list. -/
theorem processedResponse_results_of_empty (gen : Option String → String)
    (r : SearchResponse) (args : SearchArgs)
    (hempty : (filterStage args.filter_score r).results = []) :
    (processedResponse gen r args).results = [] := by
  have hclean : (cleanStage (filterStage args.filter_score r)).results = [] := by
    simp [cleanStage, hempty]
  unfold processedResponse
  cases hb : args.summarize_content
  · simpa [hb] using hclean
  · simp only [hb, if_true]
    rw [summarize_content_fn_results, hclean]
    rfl

/-- C9: when filtering leaves no results (in particular when every score
is below the threshold), processing still returns the formatted string:
the `content` list is just the header and `Sources` label (plus the
optional suggested answer) with zero source blocks, the output begins
with the query header and `Sources` label, and with the suggested-answer
option off it is exactly the header block. -/
theorem empty_results_format (gen : Option String → String)
    (r : SearchResponse) (args : SearchArgs)
    (hempty : (filterStage args.filter_score r).results = []) :
    buildContent (processedResponse gen r args) args =
      ["Query: " ++ r.query ++ "\n", "Sources:\n"] ++
        (if args.suggested_answer then ["Suggested Answer: " ++ r.answer] else []) ∧
    (∃ rest : String, process_response gen r args =
      "Query: " ++ r.query ++ "\n\nSources:\n" ++ rest) ∧
    (args.suggested_answer = false →
      process_response gen r args = "Query: " ++ r.query ++ "\n\nSources:\n") := by
  have hres := processedResponse_results_of_empty gen r args hempty
  refine ⟨?_, process_response_header gen r args, ?_⟩
  · rw [buildContent_eq, hres, processedResponse_query, processedResponse_answer]
    rfl
  · intro hb
    unfold process_response
    rw [buildContent_eq, hres, processedResponse_query]
    rw [show (if args.suggested_answer then
          ["Suggested Answer: " ++ (processedResponse gen r args).answer] else [])
        = [] from by rw [hb]; rfl]
    show ("Query: " ++ r.query ++ "\n") ++ "\n" ++ joinStrings "\n" ["Sources:\n"]
      = "Query: " ++ r.query ++ "\n\nSources:\n"
    apply String.ext
    have h1 : ("\n\nSources:\n" : String).data =
        ("\n" : String).data ++ (("\n" : String).data ++ ("Sources:\n" : String).data) := by
      decide
    simp [joinStrings, String.data_append, h1]

/-- Witness for C9: the sub-threshold single-result response formats to
exactly the header block. -/
theorem empty_results_format_witness :
    (filterStage franceArgs.filter_score lowScoreResponse).results = [] ∧
    process_response gen0 lowScoreResponse franceArgs =
      "Query: " ++ lowScoreResponse.query ++ "\n\nSources:\n" :=
  ⟨by decide,
   (empty_results_format gen0 lowScoreResponse franceArgs (by decide)).2.2 rfl⟩

end WebSearch
